import Mathlib

/-!
# Verification of the mindmap generator (`app.py`)

Shallow embedding of the single-file Streamlit application `app.py` of the
repository `Anjaney10/mindmap`, together with proofs and refutations of the
specification claims.

Modelling conventions:
* Python strings are Lean `String`s (lists of Unicode scalar values); slicing
  `s[10:]` / `s[:-3]` becomes `List.drop` / `List.take` on `String.data`.
* The two external services (the transcript API and the LLM) are parameters:
  a call either returns a value (`Except.ok`) or raises (`Except.error`),
  matching the `try`/`except` blocks in the source.
* Character-class functions (`str.strip`, `str.lower`, `re`'s `\w`) are
  modelled on the ASCII range, which covers every character the claims and
  the source constants use; theorems about `re.sub(r'[\W_]+', ...)` carry an
  explicit ASCII hypothesis marking the modelled domain.
* The f-string template of `create_markmap_html` (app.py lines 87-117)
  contains *unescaped* braces on the JavaScript destructuring lines, e.g.
  line 106: `const { Transformer, Markmap, loadCSS, loadJS } = markmap;`.
  In a Python f-string `{ Transformer, Markmap, loadCSS, loadJS }` is a
  replacement field whose expression is evaluated when the function runs;
  the names are undefined, so evaluating the template raises
  `NameError: name 'Transformer' is not defined` on every call, after
  `json.dumps` has been evaluated.  The embedding returns that exception.
-/

/-- Python `str.isspace` characters in the ASCII range, the set removed by
`str.strip()` (code points 9-13, 28-31 and 32). -/
def isPySpace (c : Char) : Bool :=
  (9 ≤ c.toNat && c.toNat ≤ 13) || (28 ≤ c.toNat && c.toNat ≤ 32)

/-- ASCII uppercase letter. -/
def isAsciiUpper (c : Char) : Bool := 65 ≤ c.toNat && c.toNat ≤ 90

/-- ASCII lowercase letter. -/
def isAsciiLower (c : Char) : Bool := 97 ≤ c.toNat && c.toNat ≤ 122

/-- ASCII digit. -/
def isAsciiDigit (c : Char) : Bool := 48 ≤ c.toNat && c.toNat ≤ 57

/-- ASCII alphanumeric character: the characters of `re`'s word class `\w`
other than `_`, restricted to ASCII (the modelled domain). -/
def isAsciiAlnum (c : Char) : Bool :=
  isAsciiUpper c || isAsciiLower c || isAsciiDigit c

/-- Python `str.lower` on the ASCII range. -/
def pyToLower (c : Char) : Char :=
  if isAsciiUpper c then Char.ofNat (c.toNat + 32) else c

/-- Both ends of `str.strip()`: drop leading and trailing whitespace. -/
def stripList (l : List Char) : List Char :=
  ((l.dropWhile isPySpace).reverse.dropWhile isPySpace).reverse

/-- Python `s.strip()`. -/
def pyStrip (s : String) : String := ⟨stripList s.data⟩

/-! ## Transcript extraction (`get_youtube_transcript`, app.py lines 9-29)

The video id is `re.search(r"(?<=v=)[^&#]+|(?<=be/)[^&#]+", url)`: scan the
positions of the url left to right; at a position whose preceding characters
are `v=` or `be/`, match the maximal nonempty run of characters other than
`&`/`#`; the first such position wins and the run is returned (`group(0)`).
The scanner below keeps the reversed consumed prefix, which is exactly the
information the lookbehinds inspect. -/

/-- Character allowed by the run `[^&#]+`. -/
def notAmpHash (c : Char) : Bool := !(c == '&' || c == '#')

/-- Does the consumed prefix (given reversed) end with `v=` or with `be/`? -/
def lookMatchRb (rev : List Char) : Bool :=
  match rev with
  | '=' :: 'v' :: _ => true
  | '/' :: 'e' :: 'b' :: _ => true
  | _ => false

/-- One left-to-right pass of `re.search` for the video-id pattern:
`rev` is the reversed consumed prefix, the second argument the rest. -/
def pyGoR : List Char → List Char → Option (List Char)
  | _, [] => none
  | rev, c :: r =>
    let m := (c :: r).takeWhile notAmpHash
    if lookMatchRb rev && !m.isEmpty then some m
    else pyGoR (c :: rev) r

/-- The video id extracted from a URL, `None` when the pattern has no match. -/
def extractId (url : String) : Option String :=
  (pyGoR [] url.data).map fun l => ⟨l⟩

/-- One caption fragment returned by the transcript service; only the
`text` field is used by the program. -/
structure TranscriptItem where
  text : String
  deriving DecidableEq

/-- Error message for a URL without a video id (app.py line 18). -/
def invalidUrlMsg : String :=
  "Error: Could not extract video ID from the URL. Please use a valid YouTube video link."

/-- Error message when the transcript service raises (app.py line 29). -/
def transcriptErrMsg (details : String) : String :=
  "Error: Could not fetch transcript. The video might not have transcripts enabled, or the URL is incorrect. (Details: " ++ details ++ ")"

/-- `get_youtube_transcript` (app.py lines 9-29).  `fetch` models
`YouTubeTranscriptApi.get_transcript`; the second component of the result
records the video ids actually requested from the service. -/
def get_youtube_transcript (fetch : String → Except String (List TranscriptItem))
    (youtube_url : String) : (Option String × Option String) × List String :=
  match extractId youtube_url with
  | none => ((none, some invalidUrlMsg), [])
  | some video_id =>
    match fetch video_id with
    | .ok transcript_list =>
      ((some (String.intercalate " " (transcript_list.map TranscriptItem.text)), none),
       [video_id])
    | .error e => ((none, some (transcriptErrMsg e)), [video_id])

/-! ## Mind-map generation (`generate_mind_map_markdown`, app.py lines 31-78) -/

/-- The prompt template (app.py lines 40-66); `{{...}}` in the Python
f-string renders as literal braces. -/
def mindMapPrompt (topic transcript : String) : String :=
  "\n### **System Instructions & Persona**\nYou are an expert AI assistant specializing in academic content analysis for competitive examinations. Your specific persona is that of a **UPSC (Union Public Service Commission) Exam Analyst**.\n\nYour primary function is to process educational content and restructure it into a highly organized, hierarchical mind map format for efficient learning and revision. You are precise, factual, and strictly adhere to the provided source material to ensure accuracy, which is paramount for exam preparation.\n\n### **Workflow Goal**\nYour task is to analyze the provided `{youtube_transcript}` on the topic of `{video_topic}` and convert it into a logical mind map using Markdown syntax compatible with the `markmap` tool.\n\n### **Core Instructions & Constraints**\n1.  **Strict Source Adherence:** You **MUST** derive all information exclusively from the provided `{youtube_transcript}`. Do not introduce any external facts, figures, or concepts. Your role is to distill and structure the given information, not to supplement it. This is a strict rule to prevent factual inaccuracies (hallucinations).\n2.  **UPSC Relevance Filter:** Analyze the transcript through the lens of the UPSC Civil Services Examination syllabus. Prioritize and extract key information relevant to the exam.\n3.  **Logical Structuring:** Do not just list points. You must identify the main themes in the transcript and organize the extracted details hierarchically under these themes. The structure should flow logically from main ideas to supporting details.\n4.  **Conciseness:** Use clear and concise language. Summarize points effectively without losing their core meaning. Use bullet points for detailed breakdowns under a main heading.\n\n### **Output Format (CRITICAL)**\nThe output **MUST** be a single Markdown code block formatted for `markmap`. Follow this structure precisely:\n* **Root Node (`#`):** The main topic of the video, using the `{video_topic}` variable.\n* **Main Branches (`-`):** The primary themes or sections identified from the transcript.\n* **Sub-branches (indented `-`):** Supporting details, facts, figures, and examples. Use two spaces for each level of indentation.\n\n-----\n### **User Input Variables**\n\n*   `{video_topic}`: "
  ++ topic
  ++ "\n*   `{youtube_transcript}`: "
  ++ transcript
  ++ "\n"

/-- The response cleanup (app.py lines 70-76): strip, drop the first ten
characters when the text starts with the eleven-character marker
"```markdown" (the source slices `[10:]`), drop a trailing "```", strip. -/
def cleanupMarkdown (raw : String) : String :=
  let t1 := pyStrip raw
  let t2 := if "```markdown".data.isPrefixOf t1.data then (⟨t1.data.drop 10⟩ : String) else t1
  let t3 := if "```".data.isSuffixOf t2.data then (⟨t2.data.take (t2.data.length - 3)⟩ : String) else t2
  pyStrip t3

/-- Error message when the generation call raises (app.py line 78). -/
def generationErrMsg (details : String) : String :=
  "Error: Failed to generate mind map from the LLM. Please check your API key and try again. (Details: " ++ details ++ ")"

/-- `generate_mind_map_markdown` (app.py lines 31-78).  `gen` models the
configured Gemini call `model.generate_content(prompt).text`, taking the
api key and the prompt; the second component records the (key, prompt)
pairs actually sent to the service. -/
def generate_mind_map_markdown (gen : String → String → Except String String)
    (api_key topic transcript : String) :
    (Option String × Option String) × List (String × String) :=
  let prompt := mindMapPrompt topic transcript
  match gen api_key prompt with
  | .ok text => ((some (cleanupMarkdown text), none), [(api_key, prompt)])
  | .error e => ((none, some (generationErrMsg e)), [(api_key, prompt)])

/-! ## JSON string escaping (`json.dumps` on a string, default options) -/

/-- Lowercase hexadecimal digit. -/
def hexDigit (n : Nat) : Char :=
  if n < 10 then Char.ofNat (48 + n) else Char.ofNat (87 + n)

/-- A `\uXXXX` escape. -/
def uEsc (n : Nat) : List Char :=
  ['\\', 'u', hexDigit (n / 4096 % 16), hexDigit (n / 256 % 16),
   hexDigit (n / 16 % 16), hexDigit (n % 16)]

/-- `json.dumps` escaping of one character (`ensure_ascii=True`, the
default): short escapes for the characters of `ESCAPE_DCT` (code points 34
`"`, 92 backslash, 10 `\n`, 13 `\r`, 9 `\t`, 8 `\b`, 12 `\f`), `\uXXXX`
for the remaining characters outside the printable ASCII range 32..126 (a
surrogate pair above `0xFFFF`), everything else copied verbatim. -/
def escChar (c : Char) : List Char :=
  if c.toNat = 34 then ['\\', '"']
  else if c.toNat = 92 then ['\\', '\\']
  else if c.toNat = 10 then ['\\', 'n']
  else if c.toNat = 13 then ['\\', 'r']
  else if c.toNat = 9 then ['\\', 't']
  else if c.toNat = 8 then ['\\', 'b']
  else if c.toNat = 12 then ['\\', 'f']
  else if c.toNat < 32 ∨ 126 < c.toNat then
    if c.toNat < 65536 then uEsc c.toNat
    else uEsc (55296 + (c.toNat - 65536) / 1024) ++ uEsc (56320 + (c.toNat - 65536) % 1024)
  else [c]

/-- The escaped body of a JSON string literal. -/
def escBody : List Char → List Char
  | [] => []
  | c :: cs => escChar c ++ escBody cs

/-- `json.dumps(s)` for a string `s`: the escaped body in double quotes. -/
def jsonDumps (s : String) : String := ⟨'"' :: (escBody s.data ++ ['"'])⟩

/-! ## Artifact building (`create_markmap_html`, app.py lines 80-118) -/

/-- A Python exception escaping a function. -/
inductive PyError where
  /-- `NameError: name '<name>' is not defined`. -/
  | nameError (name : String)
  deriving DecidableEq

/-- `create_markmap_html` (app.py lines 80-118): computes
`escaped_markdown = json.dumps(markdown_content)` and then evaluates the
f-string template, whose first unescaped replacement field
`{ Transformer, Markmap, loadCSS, loadJS }` (line 106) raises
`NameError: name 'Transformer' is not defined`, so the function never
returns a string. -/
def create_markmap_html (topic markdown_content : String) : Except PyError String :=
  let escaped_markdown := jsonDumps markdown_content
  let _ := escaped_markdown
  let _ := topic
  Except.error (PyError.nameError "Transformer")

/-! ## Filename sanitization and the Streamlit flow (`main`, app.py 122-192) -/

/-- `re.sub(r'[\W_]+', '_', s)` on the ASCII domain: every maximal run of
non-alphanumeric characters is replaced by a single underscore.  The flag
records whether the previous character was part of such a run. -/
def collapseNonAlnum (inRun : Bool) : List Char → List Char
  | [] => []
  | c :: cs =>
    if isAsciiAlnum c then c :: collapseNonAlnum false cs
    else if inRun then collapseNonAlnum true cs
    else '_' :: collapseNonAlnum true cs

/-- `re.sub(r'[\W_]+', '_', video_topic).lower() + ".html"`
(app.py line 179). -/
def sanitizeFilename (video_topic : String) : String :=
  (⟨(collapseNonAlnum false video_topic.data).map pyToLower⟩ : String) ++ ".html"

/-- Decides whether a string matches `^[a-z0-9_]+\.html$`. -/
def matchesFilenamePattern (s : String) : Bool :=
  ".html".data.isSuffixOf s.data &&
  (let stem := s.data.take (s.data.length - 5)
   !stem.isEmpty && stem.all fun c => isAsciiLower c || isAsciiDigit c || c == '_')

/-- Validation message for an empty api key (app.py line 149). -/
def missingKeyMsg : String := "❌ Please enter your Google AI API Key in the sidebar."

/-- Validation message for an empty topic (app.py line 151). -/
def missingTopicMsg : String := "❌ Please provide a video topic."

/-- Validation message for an empty URL (app.py line 153). -/
def missingUrlMsg : String := "❌ Please provide a YouTube URL."

/-- Outcome of one press of the Generate button. -/
inductive RunOutcome where
  /-- A required input was empty; `st.error(msg)` and nothing else ran. -/
  | missingInput (msg : String)
  /-- A stage returned an error message; `st.error(msg)` and the run stopped. -/
  | stageError (msg : String)
  /-- An exception propagated uncaught out of `main`. -/
  | crashed (e : PyError)
  /-- The full pipeline completed: markdown shown, html offered under filename. -/
  | success (markdown html filename : String)
  deriving DecidableEq

/-- The network calls performed during one run. -/
structure Trace where
  /-- Video ids requested from the transcript service. -/
  fetchCalls : List String
  /-- (api key, prompt) pairs sent to the generation service. -/
  genCalls : List (String × String)
  deriving DecidableEq

/-- The body of the Generate button handler (app.py lines 147-192):
validation of the three inputs in order, then the three stages, stopping at
the first error; `create_markmap_html` is not wrapped in `try`, so its
exception propagates. -/
def runGenerate (fetch : String → Except String (List TranscriptItem))
    (gen : String → String → Except String String)
    (api_key video_topic youtube_url : String) : RunOutcome × Trace :=
  if api_key = "" then (.missingInput missingKeyMsg, ⟨[], []⟩)
  else if video_topic = "" then (.missingInput missingTopicMsg, ⟨[], []⟩)
  else if youtube_url = "" then (.missingInput missingUrlMsg, ⟨[], []⟩)
  else
    match get_youtube_transcript fetch youtube_url with
    | ((_, some err), tCalls) => (.stageError err, ⟨tCalls, []⟩)
    | ((transcriptOpt, none), tCalls) =>
      let transcript := transcriptOpt.getD ""
      match generate_mind_map_markdown gen api_key video_topic transcript with
      | ((_, some err), gCalls) => (.stageError err, ⟨tCalls, gCalls⟩)
      | ((markdownOpt, none), gCalls) =>
        let markdown_output := markdownOpt.getD ""
        match create_markmap_html video_topic markdown_output with
        | .error e => (.crashed e, ⟨tCalls, gCalls⟩)
        | .ok html_content =>
          (.success markdown_output html_content (sanitizeFilename video_topic),
           ⟨tCalls, gCalls⟩)

/-- The spec's description of transcript joining: fragments in their
original order with exactly one space between consecutive fragments. -/
def joinedSpaced : List String → String
  | [] => ""
  | [t] => t
  | t :: ts => t ++ " " ++ joinedSpaced ts

/-- Tail of the spec-side join: each further fragment is preceded by one
space. -/
def joinedTail : List String → String
  | [] => ""
  | t :: ts => " " ++ t ++ joinedTail ts

/-- The scan of the video-id search fires at no position inside the given
list: at every position (`rev` the reversed consumed prefix) the lookbehind
and the nonempty-run test do not both succeed. -/
def scanViewSafe : List Char → List Char → Prop
  | _, [] => True
  | rev, x :: xs => (lookMatchRb rev && notAmpHash x) = false ∧ scanViewSafe (x :: rev) xs

/-- Transcript service of the end-to-end scenario: two fragments for the
video `abc123`. -/
def mockFetchC1 : String → Except String (List TranscriptItem) :=
  fun vid => if vid = "abc123" then .ok [⟨"Hello"⟩, ⟨"World"⟩] else .error "no transcript"

/-- Generation service of the end-to-end scenario: a fenced markdown block. -/
def mockGenC1 : String → String → Except String String :=
  fun _ _ => .ok "```markdown\n# Test Topic\n- A\n  - B\n```"

/-- A transcript service that always raises. -/
def dummyFetch : String → Except String (List TranscriptItem) :=
  fun _ => .error "unreachable"

/-- A generation service that always raises. -/
def dummyGen : String → String → Except String String :=
  fun _ _ => .error "unreachable"

/-- Transcript service returning two fragments for the video `xyz`. -/
def mockFetchXyz : String → Except String (List TranscriptItem) :=
  fun vid => if vid = "xyz" then .ok [⟨"Hello"⟩, ⟨"World"⟩] else .error "no transcript"

/-- Transcript service returning an empty fragment list for the video `xyz`. -/
def mockFetchXyzEmpty : String → Except String (List TranscriptItem) :=
  fun vid => if vid = "xyz" then .ok [] else .error "no transcript"

/-! ## Helper lemmas: stripping -/

theorem dropWhile_idem (p : Char → Bool) (l : List Char) :
    List.dropWhile p (List.dropWhile p l) = List.dropWhile p l := by
  induction l with
  | nil => rfl
  | cons c cs ih =>
    cases h : p c with
    | true => rw [List.dropWhile_cons, if_pos h, ih]
    | false => rw [List.dropWhile_cons, if_neg (by simp [h]), List.dropWhile_cons, if_neg (by simp [h])]

theorem dropWhile_sfx (p : Char → Bool) (l : List Char) : List.dropWhile p l <:+ l := by
  induction l with
  | nil => exact ⟨[], rfl⟩
  | cons c cs ih =>
    cases h : p c with
    | true =>
      rw [List.dropWhile_cons, if_pos h]
      exact ih.trans ( List.suffix_cons c cs)
    | false => rw [List.dropWhile_cons, if_neg (by simp [h])]

theorem head_not_of_dropWhile_eq (p : Char → Bool) (x : Char) (xs : List Char)
    (h : List.dropWhile p (x :: xs) = x :: xs) : p x = false := by
  cases hx : p x with
  | false => rfl
  | true =>
    rw [List.dropWhile_cons, if_pos hx] at h
    have hlen : (List.dropWhile p xs).length ≤ xs.length :=
      (List.dropWhile_sublist p).length_le
    rw [h] at hlen
    simp at hlen

theorem dropWhile_eq_self_of_pre (p : Char → Bool) (a b : List Char)
    (hpre : a <+: b) (hb : List.dropWhile p b = b) : List.dropWhile p a = a := by
  cases a with
  | nil => rfl
  | cons x xs =>
    obtain ⟨t, ht⟩ := hpre
    have hx : p x = false := by
      apply head_not_of_dropWhile_eq p x (xs ++ t)
      rw [show x :: xs ++ t = x :: (xs ++ t) from rfl] at ht
      rw [ht]
      exact hb
    rw [List.dropWhile_cons, if_neg (by simp [hx])]

theorem stripList_idem (l : List Char) : stripList (stripList l) = stripList l := by
  unfold stripList
  set A := List.dropWhile isPySpace l with hA
  have hAdrop : List.dropWhile isPySpace A = A := dropWhile_idem _ _
  set B := (List.dropWhile isPySpace A.reverse).reverse with hB
  have hBrev : B.reverse = List.dropWhile isPySpace A.reverse := by
    rw [hB, List.reverse_reverse]
  have hBpre : B <+: A := by
    have hs : List.dropWhile isPySpace A.reverse <:+ A.reverse := dropWhile_sfx _ _
    have := List.reverse_prefix.mpr hs
    rwa [List.reverse_reverse] at this
  have hBdrop : List.dropWhile isPySpace B = B := dropWhile_eq_self_of_pre _ _ _ hBpre hAdrop
  rw [hBdrop, hBrev, dropWhile_idem, ← hBrev, List.reverse_reverse]

theorem pyStrip_idem (s : String) : pyStrip (pyStrip s) = pyStrip s := by
  unfold pyStrip
  rw [show (⟨stripList s.data⟩ : String).data = stripList s.data from rfl, stripList_idem]

/-! ## Helper lemmas: markdown cleanup (C4) -/

theorem cleanup_eq_strip (raw : String) : ∃ x, cleanupMarkdown raw = pyStrip x :=
  ⟨_, rfl⟩

theorem cleanup_stripped (raw : String) :
    pyStrip (cleanupMarkdown raw) = cleanupMarkdown raw := by
  obtain ⟨x, hx⟩ := cleanup_eq_strip raw
  rw [hx, pyStrip_idem]

/-- C4 (counterexample): the string of six backticks cleans to "```", which
is the output of one application of the cleanup step, yet cleaning it again
yields "" — the step is not idempotent on its own outputs. -/
theorem c4_counterexample :
    cleanupMarkdown "``````" = "```" ∧ cleanupMarkdown "```" = "" ∧
    cleanupMarkdown (cleanupMarkdown "``````") ≠ cleanupMarkdown "``````" := by
  decide

/-- C4 (amended): the cleanup step is idempotent on every output of one
application that does not still start with the opening marker
"```markdown" and does not still end with a closing fence "```". -/
theorem c4_amended (s raw : String) (hs : s = cleanupMarkdown raw)
    (h1 : "```markdown".data.isPrefixOf s.data = false)
    (h2 : "```".data.isSuffixOf s.data = false) :
    cleanupMarkdown s = s := by
  have hstrip : pyStrip s = s := by rw [hs]; exact cleanup_stripped raw
  simp only [cleanupMarkdown, hstrip, h1, h2, Bool.false_eq_true, if_false]

/-- Witness for C4: the already-clean string "# Hi" is a cleanup output and
is left unchanged by a second application. -/
theorem c4_amended_witness : cleanupMarkdown (cleanupMarkdown "# Hi") = cleanupMarkdown "# Hi" :=
  c4_amended (cleanupMarkdown "# Hi") "# Hi" rfl (by decide) (by decide)

/-! ## Helper lemmas: filename sanitization (C5) -/

theorem alnum_ascii (c : Char) (h : isAsciiAlnum c = true) : c.toNat < 128 := by
  simp [isAsciiAlnum, isAsciiUpper, isAsciiLower, isAsciiDigit] at h
  omega

theorem pyToLower_class (c : Char) (h : isAsciiAlnum c = true) :
    (isAsciiLower (pyToLower c) || isAsciiDigit (pyToLower c)) = true := by
  have hlt := alnum_ascii c h
  have key : ∀ n, n < 128 → isAsciiAlnum (Char.ofNat n) = true →
      (isAsciiLower (pyToLower (Char.ofNat n)) || isAsciiDigit (pyToLower (Char.ofNat n))) = true := by
    decide
  have hk := key c.toNat hlt
  rw [Char.ofNat_toNat] at hk
  exact hk h

theorem collapse_mem (l : List Char) : ∀ (b : Bool) (c : Char),
    c ∈ collapseNonAlnum b l → isAsciiAlnum c = true ∨ c = '_' := by
  induction l with
  | nil => intro b c hc; simp [collapseNonAlnum] at hc
  | cons x xs ih =>
    intro b c hc
    simp only [collapseNonAlnum] at hc
    by_cases hx : isAsciiAlnum x = true
    · rw [if_pos hx] at hc
      rcases List.mem_cons.mp hc with rfl | hc2
      · exact .inl hx
      · exact ih false c hc2
    · rw [if_neg hx] at hc
      cases b with
      | true => exact ih true c (by simpa using hc)
      | false =>
        rcases List.mem_cons.mp (by simpa using hc) with rfl | hc2
        · exact .inr rfl
        · exact ih true c hc2

theorem collapse_ne_nil (x : Char) (xs : List Char) :
    collapseNonAlnum false (x :: xs) ≠ [] := by
  simp only [collapseNonAlnum]
  by_cases hx : isAsciiAlnum x = true
  · rw [if_pos hx]; simp
  · rw [if_neg hx]; simp

/-- C5 (counterexample): the topic "Preamble: Part I" sanitizes to
"preamble_part_i.html" — the run ": " collapses to one underscore and the
trailing "I" is alphanumeric, so no trailing underscore appears, contrary
to the claimed "preamble_part_i_.html". -/
theorem c5_counterexample :
    sanitizeFilename "Preamble: Part I" = "preamble_part_i.html" ∧
    sanitizeFilename "Preamble: Part I" ≠ "preamble_part_i_.html" := by
  decide

/-- C5 (amended): for every nonempty topic of ASCII characters (the
modelled domain of the Unicode-aware `re.sub`), the sanitized download
filename matches `^[a-z0-9_]+\.html$`. -/
theorem c5_amended (topic : String) (hne : topic.data ≠ [])
    (_hascii : ∀ c ∈ topic.data, c.toNat < 128) :
    matchesFilenamePattern (sanitizeFilename topic) = true := by
  unfold matchesFilenamePattern sanitizeFilename
  have hdata : ((⟨(collapseNonAlnum false topic.data).map pyToLower⟩ : String) ++ ".html").data
      = (collapseNonAlnum false topic.data).map pyToLower ++ ".html".data := rfl
  rw [hdata]
  set L := (collapseNonAlnum false topic.data).map pyToLower with hL
  have hlen : (L ++ ".html".data).length - 5 = L.length := by
    simp [List.length_append]
  rw [hlen, List.take_left]
  have hsfx : ".html".data.isSuffixOf (L ++ ".html".data) = true :=
    List.isSuffixOf_iff_suffix.mpr ⟨L, rfl⟩
  have hnonempty : L ≠ [] := by
    rw [hL]
    cases hd : topic.data with
    | nil => exact absurd hd hne
    | cons x xs => simp [collapse_ne_nil x xs]
  have hall : L.all (fun c => isAsciiLower c || isAsciiDigit c || c == '_') = true := by
    rw [List.all_eq_true]
    intro c hc
    rw [hL] at hc
    obtain ⟨c0, hc0, rfl⟩ := List.mem_map.mp hc
    rcases collapse_mem topic.data false c0 hc0 with halnum | rfl
    · have := pyToLower_class c0 halnum
      simp only [Bool.or_eq_true] at this ⊢
      exact .inl this
    · decide
  simp only [hsfx, Bool.true_and]
  simp [hall, hnonempty]

/-- Witness for C5: the amended theorem applied to the topic
"Preamble: Part I". -/
theorem c5_amended_witness :
    matchesFilenamePattern (sanitizeFilename "Preamble: Part I") = true :=
  c5_amended "Preamble: Part I" (by decide) (by decide)

/-! ## Helper lemmas: transcript joining (C8) -/

theorem joinedSpaced_eq (t : String) (ts : List String) :
    joinedSpaced (t :: ts) = t ++ joinedTail ts := by
  induction ts generalizing t with
  | nil => simp [joinedSpaced, joinedTail]
  | cons u us ih => simp [joinedSpaced, joinedTail, String.append_assoc, ih]

theorem intercalate_go_spec (as : List String) : ∀ acc : String,
    String.intercalate.go acc " " as = acc ++ joinedTail as := by
  induction as with
  | nil => intro acc; simp [String.intercalate.go, joinedTail]
  | cons a as ih =>
    intro acc
    rw [String.intercalate.go, ih (acc ++ " " ++ a), joinedTail]
    simp [String.append_assoc]

theorem intercalate_space_eq (l : List String) :
    String.intercalate " " l = joinedSpaced l := by
  cases l with
  | nil => rfl
  | cons a as =>
    rw [show String.intercalate " " (a :: as) = String.intercalate.go a " " as from rfl]
    rw [intercalate_go_spec as a, joinedSpaced_eq]

/-- C8: whenever the URL yields a video id and the transcript service
returns a fragment list, `get_youtube_transcript` succeeds with the
fragments' text fields joined in order with exactly one space between
consecutive fragments (`joinedSpaced`), and a null error; the empty list
gives the empty string (instantiate `items := []`). -/
theorem c8_transcript_join (fetch : String → Except String (List TranscriptItem))
    (url vid : String) (items : List TranscriptItem)
    (hx : extractId url = some vid) (hf : fetch vid = Except.ok items) :
    get_youtube_transcript fetch url
      = ((some (joinedSpaced (items.map TranscriptItem.text)), none), [vid]) := by
  unfold get_youtube_transcript
  simp only [hx, hf]
  rw [intercalate_space_eq]

/-- Witness for C8: two fragments join with a single space; the empty
fragment list is a success with the empty string. -/
theorem c8_witness :
    get_youtube_transcript mockFetchXyz "https://youtu.be/xyz"
      = ((some (joinedSpaced ["Hello", "World"]), none), ["xyz"]) ∧
    get_youtube_transcript mockFetchXyzEmpty "https://youtu.be/xyz"
      = ((some "", none), ["xyz"]) :=
  ⟨c8_transcript_join mockFetchXyz _ "xyz" [⟨"Hello"⟩, ⟨"World"⟩] (by decide) rfl,
   c8_transcript_join mockFetchXyzEmpty _ "xyz" [] (by decide) rfl⟩

/-- C7: when the video-id pattern has no match in the URL, the function
returns the null result with the invalid-URL message, and no request is
made to the transcript service (the call trace is empty), for every
possible service behaviour. -/
theorem c7_invalid_url (fetch : String → Except String (List TranscriptItem))
    (url : String) (h : extractId url = none) :
    get_youtube_transcript fetch url = ((none, some invalidUrlMsg), []) := by
  unfold get_youtube_transcript
  rw [h]

/-- Witness for C7: a URL with neither `v=` nor `be/`. -/
theorem c7_witness :
    get_youtube_transcript dummyFetch "https://example.com/page"
      = ((none, some invalidUrlMsg), []) :=
  c7_invalid_url dummyFetch "https://example.com/page" (by decide)

/-- C9: when any of the three required inputs is empty the run aborts with
the distinct validation message of the first empty input in source order,
and the trace is empty — no transcript fetch and no generation call occur,
whatever the services would do. -/
theorem c9_validation (fetch : String → Except String (List TranscriptItem))
    (gen : String → String → Except String String)
    (api_key video_topic youtube_url : String)
    (h : api_key = "" ∨ video_topic = "" ∨ youtube_url = "") :
    runGenerate fetch gen api_key video_topic youtube_url
      = (RunOutcome.missingInput
          (if api_key = "" then missingKeyMsg
           else if video_topic = "" then missingTopicMsg else missingUrlMsg),
         ⟨[], []⟩) ∧
    (missingKeyMsg ≠ missingTopicMsg ∧ missingKeyMsg ≠ missingUrlMsg ∧
     missingTopicMsg ≠ missingUrlMsg) := by
  constructor
  · by_cases h1 : api_key = ""
    · simp [runGenerate, h1]
    · by_cases h2 : video_topic = ""
      · simp [runGenerate, h1, h2]
      · have h3 : youtube_url = "" := by tauto
        simp [runGenerate, h1, h2, h3]
  · exact ⟨by decide, by decide, by decide⟩

/-- Witness for C9: empty credential, other fields filled. -/
theorem c9_witness :
    runGenerate dummyFetch dummyGen "" "Topic" "https://youtu.be/xyz"
      = (RunOutcome.missingInput missingKeyMsg, ⟨[], []⟩) := by
  have h := (c9_validation dummyFetch dummyGen "" "Topic" "https://youtu.be/xyz" (.inl rfl)).1
  simpa using h

/-- C10: each backend function returns a pair with exactly one component
null — `(text, none)` on success, `(none, message)` on failure — for every
service behaviour and every input. -/
theorem c10_result_pairs :
    (∀ (fetch : String → Except String (List TranscriptItem)) (url : String),
       ((get_youtube_transcript fetch url).1.1.isSome = true ∧
        (get_youtube_transcript fetch url).1.2 = none) ∨
       ((get_youtube_transcript fetch url).1.1 = none ∧
        (get_youtube_transcript fetch url).1.2.isSome = true)) ∧
    (∀ (gen : String → String → Except String String) (api_key topic transcript : String),
       ((generate_mind_map_markdown gen api_key topic transcript).1.1.isSome = true ∧
        (generate_mind_map_markdown gen api_key topic transcript).1.2 = none) ∨
       ((generate_mind_map_markdown gen api_key topic transcript).1.1 = none ∧
        (generate_mind_map_markdown gen api_key topic transcript).1.2.isSome = true)) := by
  constructor
  · intro fetch url
    unfold get_youtube_transcript
    cases hx : extractId url with
    | none => simp
    | some vid =>
      cases hf : fetch vid with
      | ok items => simp [hf]
      | error e => simp [hf]
  · intro gen api_key topic transcript
    unfold generate_mind_map_markdown
    cases hg : gen api_key (mindMapPrompt topic transcript) with
    | ok text => simp [hg]
    | error e => simp [hg]

/-- C2: `create_markmap_html` raises `NameError` on every input — the
f-string template's unescaped replacement field
`{ Transformer, Markmap, loadCSS, loadJS }` (app.py line 106) evaluates
undefined names — so it is not a total function returning HTML and has a
failure path on every call. -/
theorem c2_create_always_raises (topic markdown_content : String) :
    create_markmap_html topic markdown_content
      = Except.error (PyError.nameError "Transformer") := rfl

/-- C3 (counterexample): at markdown `"</script>"` the builder returns no
HTML at all (it raises `NameError`), and the JSON literal it computes,
`json.dumps("</script>")`, contains the unescaped byte sequence
`</script>` — `json.dumps` does not escape forward slashes. -/
theorem c3_counterexample :
    create_markmap_html "Topic" "</script>" = Except.error (PyError.nameError "Transformer") ∧
    "</script>".data <:+: (jsonDumps "</script>").data :=
  ⟨rfl, by decide⟩

set_option maxRecDepth 8000

/-- C1: evaluating the whole pipeline on the end-to-end scenario
(topic "Test Topic", URL with id `abc123`, transcript fragments
"Hello"/"World", generation response a fenced markdown block).  The
cleanup slices only ten of the eleven characters of "```markdown", so the
intermediate markdown is "n\n# Test Topic\n- A\n  - B" instead of the
claimed "# Test Topic\n- A\n  - B", and the run then crashes in
`create_markmap_html` (NameError from the template's unescaped braces), so
no downloadable file is produced.  The trace confirms both service calls
were made with the expected arguments. -/
theorem c1_pipeline_eval :
    runGenerate mockFetchC1 mockGenC1 "key" "Test Topic"
        "https://www.youtube.com/watch?v=abc123"
      = (RunOutcome.crashed (PyError.nameError "Transformer"),
         ⟨["abc123"], [("key", mindMapPrompt "Test Topic" "Hello World")]⟩) ∧
    cleanupMarkdown "```markdown\n# Test Topic\n- A\n  - B\n```"
      = "n\n# Test Topic\n- A\n  - B" ∧
    "n\n# Test Topic\n- A\n  - B" ≠ "# Test Topic\n- A\n  - B" :=
  ⟨rfl, by decide, by decide⟩

/-! ## Helper lemmas: video-id extraction (C6) -/

theorem lookMatchRb_cases (X : List Char) (h : lookMatchRb X = true) :
    ['=', 'v'] <+: X ∨ ['/', 'e', 'b'] <+: X := by
  unfold lookMatchRb at h
  split at h
  · left; exact ⟨_, rfl⟩
  · right; exact ⟨_, rfl⟩
  · simp at h

theorem pyGoR_skip (xs : List Char) : ∀ (rev ys : List Char),
    scanViewSafe rev xs → pyGoR rev (xs ++ ys) = pyGoR (xs.reverse ++ rev) ys := by
  induction xs with
  | nil => intro rev ys _; simp
  | cons x xs ih =>
    intro rev ys hsafe
    obtain ⟨h1, h2⟩ := hsafe
    rw [List.cons_append]
    rw [show pyGoR rev (x :: (xs ++ ys)) =
        (if lookMatchRb rev && !((x :: (xs ++ ys)).takeWhile notAmpHash).isEmpty
         then some ((x :: (xs ++ ys)).takeWhile notAmpHash)
         else pyGoR (x :: rev) (xs ++ ys)) from rfl]
    have hguard : (lookMatchRb rev && !((x :: (xs ++ ys)).takeWhile notAmpHash).isEmpty)
        = (lookMatchRb rev && notAmpHash x) := by
      cases hx : notAmpHash x with
      | true => rw [List.takeWhile_cons_of_pos hx]; simp
      | false => rw [List.takeWhile_cons_of_neg (by simp [hx])]; simp [hx]
    rw [hguard, h1]
    simp only [Bool.false_eq_true, if_false]
    rw [ih (x :: rev) ys h2]
    congr 1
    simp

theorem scanViewSafe_of (xs : List Char) : ∀ rev : List Char,
    (∀ a x b, xs = a ++ x :: b → lookMatchRb (a.reverse ++ rev) = false) →
    scanViewSafe rev xs := by
  induction xs with
  | nil => intro rev _; trivial
  | cons y ys ih =>
    intro rev H
    refine ⟨?_, ih (y :: rev) ?_⟩
    · have h0 := H [] y ys rfl
      rw [List.reverse_nil, List.nil_append] at h0
      rw [h0]
      rfl
    · intro a x b hab
      have hx := H (y :: a) x b (by rw [hab]; rfl)
      rwa [List.reverse_cons, List.append_assoc, List.singleton_append] at hx

theorem sfx_split (pat m w : List Char) (h : pat <:+ m ++ w) :
    pat <:+ w ∨ ∃ l, l ≠ [] ∧ pat = l ++ w ∧ l <:+ m := by
  induction m with
  | nil => left; simpa using h
  | cons c m ih =>
    rw [List.cons_append] at h
    rcases List.suffix_cons_iff.mp h with h1 | h2
    · right
      refine ⟨c :: m, by simp, ?_, ⟨[], rfl⟩⟩
      rw [h1, List.cons_append]
    · rcases ih h2 with h3 | ⟨l, hl, he, hs⟩
      · exact .inl h3
      · exact .inr ⟨l, hl, he, hs.trans ( List.suffix_cons c m)⟩

theorem sfx_in_pre (pat a c' m : List Char) (h : pat <:+ a) (hm : m = a ++ c') :
    pat <:+: m := by
  obtain ⟨t, rfl⟩ := h
  exact ⟨t, c', by rw [hm, List.append_assoc]⟩

theorem look_false_of_pre (pre c' a : List Char)
    (hv : ¬ ("v=".data <:+: pre)) (hb : ¬ ("be/".data <:+: pre))
    (hpre : pre = a ++ c') :
    lookMatchRb a.reverse = false := by
  cases hlm : lookMatchRb a.reverse with
  | false => rfl
  | true =>
    exfalso
    rcases lookMatchRb_cases _ hlm with hp | hp
    · have hsv : ['v', '='] <:+ a := ( @List.reverse_prefix _ ['v', '='] a).mp (by exact hp)
      exact hv (sfx_in_pre ['v', '='] a c' pre hsv hpre)
    · have hsb : ['b', 'e', '/'] <:+ a := ( @List.reverse_prefix _ ['b', 'e', '/'] a).mp (by exact hp)
      exact hb (sfx_in_pre ['b', 'e', '/'] a c' pre hsb hpre)

theorem look_false_watch (pre w' : List Char)
    (hv : ¬ ("v=".data <:+: pre)) (hb : ¬ ("be/".data <:+: pre))
    (hw : ∃ x b, "watch?v=".data = w' ++ x :: b) :
    lookMatchRb (pre ++ w').reverse = false := by
  cases hlm : lookMatchRb (pre ++ w').reverse with
  | false => rfl
  | true =>
    exfalso
    obtain ⟨x, b, hwv⟩ := hw
    have h8 : ("watch?v=".data).length = 8 := by decide
    have hlen : w'.length ≤ 7 := by
      have hl := congrArg List.length hwv
      rw [h8, List.length_append, List.length_cons] at hl
      omega
    have hpw : w' = List.take w'.length ("watch?v=".data) :=
      List.prefix_iff_eq_take.mp ⟨x :: b, hwv.symm⟩
    obtain ⟨k, hk, hwk⟩ : ∃ k, k ≤ 7 ∧ w' = List.take k ("watch?v=".data) :=
      ⟨w'.length, hlen, hpw⟩
    subst hwk
    rcases lookMatchRb_cases _ hlm with hp | hp
    · have hsv : ['v', '='] <:+ pre ++ List.take k ("watch?v=".data) :=
        ( @List.reverse_prefix _ ['v', '='] (pre ++ List.take k ("watch?v=".data))).mp (by exact hp)
      interval_cases k <;>
        rcases sfx_split ['v', '='] pre _ hsv with hin | ⟨l, hl, he, hs⟩ <;>
        first
          | exact absurd hin (by decide)
          | exact absurd (show List.take _ ("watch?v=".data) <:+ ['v', '='] from ⟨l, he.symm⟩)
              (by decide)
          | (apply hv
             apply List.IsSuffix.isInfix
             simp only [List.take_zero, List.append_nil] at he
             rw [show ("v=".data : List Char) = ['v', '='] from rfl]
             exact he ▸ hs)
    · have hsb : ['b', 'e', '/'] <:+ pre ++ List.take k ("watch?v=".data) :=
        ( @List.reverse_prefix _ ['b', 'e', '/'] (pre ++ List.take k ("watch?v=".data))).mp (by exact hp)
      interval_cases k <;>
        rcases sfx_split ['b', 'e', '/'] pre _ hsb with hin | ⟨l, hl, he, hs⟩ <;>
        first
          | exact absurd hin (by decide)
          | exact absurd (show List.take _ ("watch?v=".data) <:+ ['b', 'e', '/'] from ⟨l, he.symm⟩)
              (by decide)
          | (apply hb
             apply List.IsSuffix.isInfix
             simp only [List.take_zero, List.append_nil] at he
             rw [show ("be/".data : List Char) = ['b', 'e', '/'] from rfl]
             exact he ▸ hs)

theorem look_false_be (pre w' : List Char)
    (hv : ¬ ("v=".data <:+: pre)) (hb : ¬ ("be/".data <:+: pre))
    (hw : ∃ x b, "be/".data = w' ++ x :: b) :
    lookMatchRb (pre ++ w').reverse = false := by
  cases hlm : lookMatchRb (pre ++ w').reverse with
  | false => rfl
  | true =>
    exfalso
    obtain ⟨x, b, hwv⟩ := hw
    have h3 : ("be/".data).length = 3 := by decide
    have hlen : w'.length ≤ 2 := by
      have hl := congrArg List.length hwv
      rw [h3, List.length_append, List.length_cons] at hl
      omega
    have hpw : w' = List.take w'.length ("be/".data) :=
      List.prefix_iff_eq_take.mp ⟨x :: b, hwv.symm⟩
    obtain ⟨k, hk, hwk⟩ : ∃ k, k ≤ 2 ∧ w' = List.take k ("be/".data) :=
      ⟨w'.length, hlen, hpw⟩
    subst hwk
    rcases lookMatchRb_cases _ hlm with hp | hp
    · have hsv : ['v', '='] <:+ pre ++ List.take k ("be/".data) :=
        ( @List.reverse_prefix _ ['v', '='] (pre ++ List.take k ("be/".data))).mp (by exact hp)
      interval_cases k <;>
        rcases sfx_split ['v', '='] pre _ hsv with hin | ⟨l, hl, he, hs⟩ <;>
        first
          | exact absurd hin (by decide)
          | exact absurd (show List.take _ ("be/".data) <:+ ['v', '='] from ⟨l, he.symm⟩)
              (by decide)
          | (apply hv
             apply List.IsSuffix.isInfix
             simp only [List.take_zero, List.append_nil] at he
             rw [show ("v=".data : List Char) = ['v', '='] from rfl]
             exact he ▸ hs)
    · have hsb : ['b', 'e', '/'] <:+ pre ++ List.take k ("be/".data) :=
        ( @List.reverse_prefix _ ['b', 'e', '/'] (pre ++ List.take k ("be/".data))).mp (by exact hp)
      interval_cases k <;>
        rcases sfx_split ['b', 'e', '/'] pre _ hsb with hin | ⟨l, hl, he, hs⟩ <;>
        first
          | exact absurd hin (by decide)
          | exact absurd (show List.take _ ("be/".data) <:+ ['b', 'e', '/'] from ⟨l, he.symm⟩)
              (by decide)
          | (apply hb
             apply List.IsSuffix.isInfix
             simp only [List.take_zero, List.append_nil] at he
             rw [show ("be/".data : List Char) = ['b', 'e', '/'] from rfl]
             exact he ▸ hs)

theorem takeWhile_all_of (p : Char → Bool) (l : List Char) (h : ∀ c ∈ l, p c = true) :
    List.takeWhile p l = l :=
  List.takeWhile_eq_self_iff.mpr h

theorem alnum_notAmpHash (c : Char) (h : isAsciiAlnum c = true) : notAmpHash c = true := by
  have h1 : c ≠ '&' := fun hc => absurd (hc ▸ h) (by decide)
  have h2 : c ≠ '#' := fun hc => absurd (hc ▸ h) (by decide)
  simp [notAmpHash, h1, h2]

theorem extract_fire (xs id : List Char) (hsafe : scanViewSafe [] xs)
    (hlook : lookMatchRb (xs.reverse ++ []) = true)
    (hidne : id ≠ []) (hrun : List.takeWhile notAmpHash id = id) :
    pyGoR [] (xs ++ id) = some id := by
  rw [pyGoR_skip xs [] id hsafe]
  cases id with
  | nil => exact absurd rfl hidne
  | cons c r =>
    rw [show pyGoR (xs.reverse ++ []) (c :: r) =
        (if lookMatchRb (xs.reverse ++ []) && !((c :: r).takeWhile notAmpHash).isEmpty
         then some ((c :: r).takeWhile notAmpHash)
         else pyGoR (c :: (xs.reverse ++ [])) r) from rfl]
    rw [hrun, hlook]
    simp

theorem look_watch (r : List Char) :
    lookMatchRb (("watch?v=".data).reverse ++ r) = true := rfl

theorem look_be (r : List Char) :
    lookMatchRb (("be/".data).reverse ++ r) = true := rfl

/-- C6: for URLs of the watch form `pre ++ "watch?v=" ++ id` and of the
short-link form `pre ++ "be/" ++ id`, with `id` nonempty and alphanumeric
and the preceding part `pre` containing no earlier `v=` or `be/` occurrence
(as in `https://www.youtube.com/` and `https://youtu.`), the identifier
extraction returns exactly `id`. -/
theorem c6_extract_forms (pre id : String) (hid : id.data ≠ [])
    (halnum : ∀ c ∈ id.data, isAsciiAlnum c = true)
    (hv : ¬ ("v=".data <:+: pre.data)) (hb : ¬ ("be/".data <:+: pre.data)) :
    extractId (pre ++ "watch?v=" ++ id) = some id ∧
    extractId (pre ++ "be/" ++ id) = some id := by
  have hrun : List.takeWhile notAmpHash id.data = id.data :=
    takeWhile_all_of _ _ (fun c hc => alnum_notAmpHash c (halnum c hc))
  constructor
  · show (pyGoR [] ((pre.data ++ "watch?v=".data) ++ id.data)).map (fun l => (⟨l⟩ : String))
        = some id
    rw [extract_fire (pre.data ++ "watch?v=".data) id.data ?safe ?look hid hrun]
    · rfl
    case safe =>
      apply scanViewSafe_of
      intro a x b hab
      rcases List.append_eq_append_iff.mp hab with ⟨w', haw, hwv⟩ | ⟨c', hpc, hxb⟩
      · rw [List.append_nil, haw]
        exact look_false_watch pre.data w' hv hb ⟨x, b, hwv⟩
      · rw [List.append_nil]
        exact look_false_of_pre pre.data c' a hv hb hpc
    case look =>
      rw [List.reverse_append]
      exact look_watch _
  · show (pyGoR [] ((pre.data ++ "be/".data) ++ id.data)).map (fun l => (⟨l⟩ : String))
        = some id
    rw [extract_fire (pre.data ++ "be/".data) id.data ?safe2 ?look2 hid hrun]
    · rfl
    case safe2 =>
      apply scanViewSafe_of
      intro a x b hab
      rcases List.append_eq_append_iff.mp hab with ⟨w', haw, hwv⟩ | ⟨c', hpc, hxb⟩
      · rw [List.append_nil, haw]
        exact look_false_be pre.data w' hv hb ⟨x, b, hwv⟩
      · rw [List.append_nil]
        exact look_false_of_pre pre.data c' a hv hb hpc
    case look2 =>
      rw [List.reverse_append]
      exact look_be _

/-- Witness for C6: the canonical YouTube URL shapes. -/
theorem c6_witness :
    extractId ("https://www.youtube.com/" ++ "watch?v=" ++ "abc123") = some "abc123" ∧
    extractId ("https://www.youtube.com/" ++ "be/" ++ "abc123") = some "abc123" :=
  c6_extract_forms "https://www.youtube.com/" "abc123" (by decide) (by decide)
    (by decide) (by decide)

/-! ## Helper lemmas: JSON escaping (C3)

The transfer property: the escaped body of a JSON string literal contains
the byte sequence `</script>` only where the source string does.  Every
escape sequence starts with a backslash, `</script>` contains no backslash,
and its first character `<` occurs in no escape sequence, so any occurrence
lies entirely in verbatim-copied characters. -/

theorem escChar_shape (c : Char) : escChar c = [c] ∨ ∃ tl, escChar c = '\\' :: tl := by
  unfold escChar
  by_cases h1 : c.toNat = 34
  · rw [if_pos h1]; right; exact ⟨_, rfl⟩
  rw [if_neg h1]
  by_cases h2 : c.toNat = 92
  · rw [if_pos h2]; right; exact ⟨_, rfl⟩
  rw [if_neg h2]
  by_cases h3 : c.toNat = 10
  · rw [if_pos h3]; right; exact ⟨_, rfl⟩
  rw [if_neg h3]
  by_cases h4 : c.toNat = 13
  · rw [if_pos h4]; right; exact ⟨_, rfl⟩
  rw [if_neg h4]
  by_cases h5 : c.toNat = 9
  · rw [if_pos h5]; right; exact ⟨_, rfl⟩
  rw [if_neg h5]
  by_cases h6 : c.toNat = 8
  · rw [if_pos h6]; right; exact ⟨_, rfl⟩
  rw [if_neg h6]
  by_cases h7 : c.toNat = 12
  · rw [if_pos h7]; right; exact ⟨_, rfl⟩
  rw [if_neg h7]
  by_cases h8 : c.toNat < 32 ∨ 126 < c.toNat
  · rw [if_pos h8]
    by_cases h9 : c.toNat < 65536
    · rw [if_pos h9]; right; exact ⟨_, rfl⟩
    · rw [if_neg h9]; right; exact ⟨_, rfl⟩
  · rw [if_neg h8]; left; rfl

theorem hexDigit_ne_lt (m : Nat) : hexDigit (m % 16) ≠ '<' := by
  have h16 : m % 16 < 16 := Nat.mod_lt _ (by omega)
  have key : ∀ k, k < 16 → hexDigit k ≠ '<' := by decide
  exact key _ h16

theorem lt_not_mem_uEsc (n : Nat) : '<' ∉ uEsc n := by
  unfold uEsc
  intro hmem
  simp only [List.mem_cons, List.not_mem_nil, or_false] at hmem
  rcases hmem with h | h | h | h | h | h
  · exact absurd h (by decide)
  · exact absurd h (by decide)
  · exact hexDigit_ne_lt (n / 4096) h.symm
  · exact hexDigit_ne_lt (n / 256) h.symm
  · exact hexDigit_ne_lt (n / 16) h.symm
  · exact hexDigit_ne_lt n h.symm

theorem lt_mem_escChar (c : Char) (hin : '<' ∈ escChar c) : escChar c = ['<'] := by
  unfold escChar at hin ⊢
  by_cases h1 : c.toNat = 34
  · rw [if_pos h1] at hin; exact absurd hin (by decide)
  rw [if_neg h1] at hin ⊢
  by_cases h2 : c.toNat = 92
  · rw [if_pos h2] at hin; exact absurd hin (by decide)
  rw [if_neg h2] at hin ⊢
  by_cases h3 : c.toNat = 10
  · rw [if_pos h3] at hin; exact absurd hin (by decide)
  rw [if_neg h3] at hin ⊢
  by_cases h4 : c.toNat = 13
  · rw [if_pos h4] at hin; exact absurd hin (by decide)
  rw [if_neg h4] at hin ⊢
  by_cases h5 : c.toNat = 9
  · rw [if_pos h5] at hin; exact absurd hin (by decide)
  rw [if_neg h5] at hin ⊢
  by_cases h6 : c.toNat = 8
  · rw [if_pos h6] at hin; exact absurd hin (by decide)
  rw [if_neg h6] at hin ⊢
  by_cases h7 : c.toNat = 12
  · rw [if_pos h7] at hin; exact absurd hin (by decide)
  rw [if_neg h7] at hin ⊢
  by_cases h8 : c.toNat < 32 ∨ 126 < c.toNat
  · rw [if_pos h8] at hin
    by_cases h9 : c.toNat < 65536
    · rw [if_pos h9] at hin
      exact absurd hin (lt_not_mem_uEsc c.toNat)
    · rw [if_neg h9] at hin
      rcases List.mem_append.mp hin with hm | hm
      · exact absurd hm (lt_not_mem_uEsc _)
      · exact absurd hm (lt_not_mem_uEsc _)
  · rw [if_neg h8] at hin ⊢
    simp only [List.mem_singleton] at hin
    rw [← hin]

theorem lt_not_in_tail (c : Char) (tl : List Char) (h : escChar c = '\\' :: tl) :
    '<' ∉ tl := by
  intro hm
  have hin : '<' ∈ escChar c := by rw [h]; exact List.mem_cons_of_mem _ hm
  have hc := lt_mem_escChar c hin
  rw [hc] at h
  simp at h

theorem escBody_append (a b : List Char) :
    escBody (a ++ b) = escBody a ++ escBody b := by
  induction a with
  | nil => rfl
  | cons x xs ih =>
    rw [List.cons_append, show escBody (x :: (xs ++ b)) = escChar x ++ escBody (xs ++ b) from rfl,
        ih, show escBody (x :: xs) = escChar x ++ escBody xs from rfl, List.append_assoc]

theorem escBody_script : escBody ("</script>".data) = "</script>".data := by decide

theorem pref_transfer (q : List Char) (hq : '\\' ∉ q) :
    ∀ m t, q ++ t = escBody m → q <+: m := by
  induction q with
  | nil => intro m t _; exact List.nil_prefix
  | cons x q ih =>
    intro m t heq
    cases m with
    | nil =>
      rw [show escBody [] = [] from rfl] at heq
      simp at heq
    | cons c m' =>
      rw [show escBody (c :: m') = escChar c ++ escBody m' from rfl] at heq
      rcases escChar_shape c with hc | ⟨tl, hc⟩
      · rw [hc, List.singleton_append] at heq
        rw [List.cons_append] at heq
        injection heq with hx heq2
        have hqtail : '\\' ∉ q := fun hmem => hq (List.mem_cons_of_mem _ hmem)
        have := ih hqtail m' t heq2
        exact hx ▸ List.cons_prefix_cons.mpr ⟨rfl, this⟩
      · rw [hc, List.cons_append] at heq
        rw [List.cons_append] at heq
        injection heq with hx _
        exact absurd (hx ▸ List.mem_cons_self x q) hq

theorem skip_tail (m' : List Char)
    (IH : ∀ s t, s ++ ("</script>".data ++ t) = escBody m' → "</script>".data <:+: m') :
    ∀ tl, '<' ∉ tl → ∀ s t, s ++ ("</script>".data ++ t) = tl ++ escBody m' →
      "</script>".data <:+: m' := by
  intro tl
  induction tl with
  | nil =>
    intro _ s t h
    rw [List.nil_append] at h
    exact IH s t h
  | cons y tl' ih =>
    intro hni s t h
    cases s with
    | nil =>
      have h' : ('<' :: ("/script>".data ++ t) : List Char) = y :: (tl' ++ escBody m') := h
      injection h' with h1 _
      exact absurd (by rw [h1]; exact List.mem_cons_self y tl') hni
    | cons a s' =>
      have h' : a :: (s' ++ ("</script>".data ++ t)) = y :: (tl' ++ escBody m') := h
      injection h' with _ h2
      exact ih (fun hm => hni (List.mem_cons_of_mem y hm)) s' t h2

theorem escBody_script_transfer : ∀ (m s t : List Char),
    s ++ ("</script>".data ++ t) = escBody m → "</script>".data <:+: m := by
  intro m
  induction m with
  | nil =>
    intro s t h
    rw [show escBody [] = [] from rfl] at h
    obtain ⟨_, hpt⟩ := List.append_eq_nil.mp h
    exact absurd (List.append_eq_nil.mp hpt).1 (by decide)
  | cons c m' ih =>
    intro s t h
    rw [show escBody (c :: m') = escChar c ++ escBody m' from rfl] at h
    rcases escChar_shape c with hc | ⟨tl, hc⟩
    · rw [hc] at h
      cases s with
      | nil =>
        have h' : ('<' :: ("/script>".data ++ t) : List Char) = c :: escBody m' := h
        injection h' with h1 h2
        have hpre := pref_transfer ("/script>".data) (by decide) m' t h2
        apply List.IsPrefix.isInfix
        show ('<' :: "/script>".data : List Char) <+: c :: m'
        rw [← h1]
        exact List.cons_prefix_cons.mpr ⟨rfl, hpre⟩
      | cons a s' =>
        have h' : a :: (s' ++ ("</script>".data ++ t)) = c :: escBody m' := h
        injection h' with _ h2
        exact List.infix_cons (ih s' t h2)
    · rw [hc] at h
      cases s with
      | nil =>
        have h' : ('<' :: ("/script>".data ++ t) : List Char) = '\\' :: (tl ++ escBody m') := h
        injection h' with h1 _
        exact absurd h1 (by decide)
      | cons a s' =>
        have h' : a :: (s' ++ ("</script>".data ++ t)) = '\\' :: (tl ++ escBody m') := h
        injection h' with _ h2
        exact List.infix_cons (skip_tail m' (fun s t hx => ih s t hx) tl
          (lt_not_in_tail c tl hc) s' t h2)

theorem append_last_split (u v w : List Char) (q : Char) (hv : v ≠ [])
    (h : u ++ v = w ++ [q]) : ∃ v', v = v' ++ [q] ∧ u ++ v' = w := by
  have hrev := congrArg List.reverse h
  rw [List.reverse_append, List.reverse_append] at hrev
  rw [show ([q] : List Char).reverse = [q] from rfl, List.singleton_append] at hrev
  rcases hvr : v.reverse with _ | ⟨y, vr⟩
  · exact absurd (by simpa using congrArg List.reverse hvr) hv
  · rw [hvr, List.cons_append] at hrev
    injection hrev with hy hrest
    refine ⟨vr.reverse, ?_, ?_⟩
    · have hvv := congrArg List.reverse hvr
      rw [List.reverse_reverse] at hvv
      rw [hvv, List.reverse_cons, hy]
    · have hw := congrArg List.reverse hrest
      rw [List.reverse_append, List.reverse_reverse, List.reverse_reverse] at hw
      exact hw

theorem jsonDumps_script_only_if (md : String)
    (h : "</script>".data <:+: (jsonDumps md).data) :
    "</script>".data <:+: md.data := by
  obtain ⟨s, t, hst⟩ := h
  cases s with
  | nil =>
    have h' : ('<' :: ("/script>".data ++ t) : List Char)
        = '"' :: (escBody md.data ++ ['"']) := hst
    injection h' with h1 _
    exact absurd h1 (by decide)
  | cons a s' =>
    have h' : a :: ((s' ++ "</script>".data) ++ t) = '"' :: (escBody md.data ++ ['"']) := hst
    injection h' with _ h2
    rw [List.append_assoc] at h2
    have hpt : "</script>".data ++ t ≠ [] := by
      intro hx
      exact absurd (List.append_eq_nil.mp hx).1 (by decide)
    obtain ⟨v', hv', huw⟩ :=
      append_last_split s' ("</script>".data ++ t) (escBody md.data) '"' hpt h2
    by_cases htnil : t = []
    · subst htnil
      rw [List.append_nil] at hv'
      have hsfx : (['"'] : List Char) <:+ "</script>".data := ⟨v', hv'.symm⟩
      exact absurd hsfx (by decide)
    · obtain ⟨t0, _, hpt0⟩ := append_last_split ("</script>".data) t v' '"' htnil hv'
      exact escBody_script_transfer md.data s' t0 (by rw [hpt0]; exact huw)

theorem jsonDumps_script_if (md : String)
    (h : "</script>".data <:+: md.data) :
    "</script>".data <:+: (jsonDumps md).data := by
  obtain ⟨s, t, hst⟩ := h
  refine ⟨'"' :: escBody s, escBody t ++ ['"'], ?_⟩
  rw [show (jsonDumps md).data = '"' :: (escBody md.data ++ ['"']) from rfl]
  rw [← hst, escBody_append, escBody_append, escBody_script]
  simp [List.append_assoc]

/-- C3 (amended): `create_markmap_html` never returns an HTML string — the
f-string template raises `NameError` on every input — and the JSON string
literal it computes before raising, `jsonDumps markdown`, contains the
byte sequence `</script>` exactly when the markdown itself contains it:
`json.dumps` escapes quotes, backslashes, control and non-ASCII characters
but not forward slashes, so a markdown `</script>` passes through verbatim
and no other input creates one. -/
theorem c3_amended (topic md : String) :
    create_markmap_html topic md = Except.error (PyError.nameError "Transformer") ∧
    ("</script>".data <:+: (jsonDumps md).data ↔ "</script>".data <:+: md.data) :=
  ⟨rfl, ⟨fun h => jsonDumps_script_only_if md h, fun h => jsonDumps_script_if md h⟩⟩
